import Mathlib

/-!
Shallow embedding of the `honeybadger` Go package (files `context.go` and
`honeybadger.go`): a client library that builds an error notice from a
message and the current call stack and POSTs it to a remote endpoint.

Modelling conventions:
* Go `interface{}` values that the library actually dispatches on are
  modelled by the inductive `GoValue` (a structured error, a string, a
  string slice, an integer).
* A Go `map[string]interface{}` is modelled by its denotation
  `String → Option GoValue` (`none` models a nil / absent entry, which is
  what `ctx[key]` yields for an absent key).
* The runtime call stack is passed explicitly: a `List Frame` (or
  `List String` of file names) whose index `i` is what `runtime.Caller i`
  reports at the point where `Caller` is invoked; `runtime.Caller i`
  succeeds exactly when `i` is in range.
* Go stdlib effects (`fmt.Sprintf` verbs `%s`/`%v`, `os.Hostname`,
  `ioutil.ReadAll`, `json.Unmarshal` of the `{"id": ...}` reply,
  `filepath.Dir`) are modelled explicitly or passed as function
  parameters where only their outcome matters.
-/

namespace Honeybadger

/-- Go values the library dispatches on: a structured `error` (carrying the
string its `Error()` method returns), a `string`, a `[]string`, an `int`. -/
inductive GoValue where
  | goError (msg : String)
  | goString (s : String)
  | goStringSlice (xs : List String)
  | goInt (n : Int)
  deriving DecidableEq, Repr

/-- Whether the value satisfies the `error` interface (the `case error`
branch of the type switch in `Report`). -/
def GoValue.isGoError : GoValue → Bool
  | .goError _ => true
  | _ => false

/-- The `Error()` description of a structured error (empty for non-errors;
only consulted when `isGoError` holds). -/
def GoValue.errorDescription : GoValue → String
  | .goError m => m
  | _ => ""

/-- The `fmt` rendering of a value under the `%v` verb: an error prints its
`Error()` string, a string prints itself, a `[]string` prints as
`[a b c]`, an int prints in decimal. -/
def GoValue.renderV : GoValue → String
  | .goError m => m
  | .goString s => s
  | .goStringSlice xs => "[" ++ String.intercalate " " xs ++ "]"
  | .goInt n => toString n

/-! ### Context (`context.go`)

`type Context map[string]interface{}` with methods `Get`, `Set`, `Del`.
The map is modelled by its denotation `String → Option GoValue`. -/

/-- Model of `Context`: the denotation of a Go `map[string]interface{}`. -/
def Context := String → Option GoValue

/-- Method `Get` returns `ctx[key]`, which is nil (`none`) for an absent key. -/
def Context.get (ctx : Context) (key : String) : Option GoValue :=
  ctx key

/-- Method `Set` performs `ctx[key] = value`: it inserts, replacing any existing
value associated with `key`. -/
def Context.set (ctx : Context) (key : String) (value : GoValue) : Context :=
  fun k => if k = key then some value else ctx k

/-- Method `Del` performs `delete(ctx, key)`. -/
def Context.del (ctx : Context) (key : String) : Context :=
  fun k => if k = key then none else ctx k

/-- The empty context `make(Context)` that `New` installs in a fresh client. -/
def emptyContext : Context := fun _ => none

/-- Two clients constructed independently by `New`: each call performs its
own `make(Context)`, so the pair holds two distinct maps, one per client.
Mutating methods on one client's context leave the other component
untouched, as Go map mutation touches only the map it is applied to. -/
structure ClientPair where
  ctx1 : Context
  ctx2 : Context

/-- Method `Set` applied to the first client's context of a pair. -/
def ClientPair.setFst (p : ClientPair) (key : String) (value : GoValue) : ClientPair :=
  { p with ctx1 := p.ctx1.set key value }

/-- Method `Del` applied to the first client's context of a pair. -/
def ClientPair.delFst (p : ClientPair) (key : String) : ClientPair :=
  { p with ctx1 := p.ctx1.del key }

/-- Method `Set` applied to the second client's context of a pair. -/
def ClientPair.setSnd (p : ClientPair) (key : String) (value : GoValue) : ClientPair :=
  { p with ctx2 := p.ctx2.set key value }

/-- Method `Del` applied to the second client's context of a pair. -/
def ClientPair.delSnd (p : ClientPair) (key : String) : ClientPair :=
  { p with ctx2 := p.ctx2.del key }

/-! ### Message formatting (`fmt.Sprintf` and `Report`'s type switch) -/

/-- The Go type name of a value, used in `fmt`'s extra-argument note. -/
def GoValue.typeName : GoValue → String
  | .goError _ => "error"
  | .goString _ => "string"
  | .goStringSlice _ => "[]string"
  | .goInt _ => "int"

/-- Worker for `sprintf` over the format's character list: `%%` emits a
literal percent, `%s` and `%v` consume the next argument and render it,
other characters are copied; a verb with no argument left emits `fmt`'s
MISSING note, and arguments left over at the end emit its EXTRA note. -/
def sprintfAux : List Char → List GoValue → String
  | [], [] => ""
  | [], a :: args =>
    "%!(EXTRA " ++
      String.intercalate ", " ((a :: args).map fun v => v.typeName ++ "=" ++ v.renderV) ++ ")"
  | '%' :: '%' :: rest, args => "%" ++ sprintfAux rest args
  | '%' :: 's' :: rest, a :: args => a.renderV ++ sprintfAux rest args
  | '%' :: 'v' :: rest, a :: args => a.renderV ++ sprintfAux rest args
  | '%' :: 's' :: rest, [] => "%!s(MISSING)" ++ sprintfAux rest []
  | '%' :: 'v' :: rest, [] => "%!v(MISSING)" ++ sprintfAux rest []
  | c :: rest, args => String.singleton c ++ sprintfAux rest args

/-- Model of `fmt.Sprintf format args...` for the verbs the library's
callers use (`%s`, `%v`, `%%`): conventional placeholder substitution of
the positional arguments into the format template. -/
def sprintf (format : String) (args : List GoValue) : String :=
  sprintfAux format.data args

/-- The message `Report e` puts in the notice, from the type switch in
`Report`: `case error` takes `e.Error()`, the default branch takes
`fmt.Sprintf "%v" e`. -/
def reportMessage (e : GoValue) : String :=
  match e with
  | .goError m => m
  | e => e.renderV

/-- Following the spec's words, for comparison with `reportMessage`: "If
the value behaves as a structured error, its textual description is used
as the notice message; otherwise a generic textual rendering of the value
is used." -/
def specNoticeMessage (e : GoValue) : String :=
  if e.isGoError then e.errorDescription else e.renderV

/-! ### Stack frames and path filtering -/

/-- One stack frame as reported by `runtime.Caller` and `runtime.FuncForPC`:
file path, line number, function name. -/
structure Frame where
  file : String
  line : Nat
  method : String
  deriving DecidableEq, Repr

/-- Whether `root` is a prefix of `s`, on the underlying character
sequences (for the valid text handled here this coincides with Go's
byte-level prefix match). -/
def beginsWith (root s : String) : Bool :=
  root.data.isPrefixOf s.data

/-- The string `s` without its first `n` characters. -/
def dropChars (s : String) (n : Nat) : String :=
  String.mk (s.data.drop n)

/-- Model of `regexp.MustCompile("^" + regexp.QuoteMeta root).ReplaceAllString s repl`:
the quoted pattern is anchored at the start of the text, so it matches at
most once, at position 0, and the match is exactly the literal `root`. -/
def anchoredReplace (root repl s : String) : String :=
  if beginsWith root s then repl ++ dropChars s root.length else s

/-- Method `filterPath`: first the package-level `rootFilter` (built from
`runtime.GOROOT()`) rewrites a GOROOT prefix to `[GO_ROOT]`; then, when
`c.ProjectRoot` is non-empty, a project-root prefix of the resulting
string is rewritten to `[PROJECT_ROOT]`. -/
def filterPath (goroot projectRoot file : String) : String :=
  let file := anchoredReplace goroot "[GO_ROOT]" file
  if projectRoot = "" then file
  else anchoredReplace projectRoot "[PROJECT_ROOT]" file

/-- Method `stacktraceFrames skip`: collects `runtime.Caller i` for
`i = skip, skip+1, ...` until `Caller` fails, applying `filterPath` to each
frame's file. The stack is passed explicitly: index `i` holds what
`runtime.Caller i` reports at the point of the call inside
`stacktraceFrames` (so index 0 is the frame of `stacktraceFrames` itself),
and `Caller i` succeeds exactly for indices in range, so the loop returns
the frames from index `skip` on. -/
def stacktraceFrames (goroot projectRoot : String) (stack : List Frame) (skip : Nat) :
    List Frame :=
  (stack.drop skip).map fun f => { f with file := filterPath goroot projectRoot f.file }

/-- The frame `runtime.Caller 0` reports inside `stacktraceFrames`. -/
def frameStacktraceFrames : Frame :=
  ⟨"honeybadger.go", 170, "honeybadger.(*Client).stacktraceFrames"⟩

/-- The frame of `buildNotice`, the caller of `stacktraceFrames`. -/
def frameBuildNotice : Frame :=
  ⟨"honeybadger.go", 136, "honeybadger.(*Client).buildNotice"⟩

/-- The frame of `Report`, the caller of `buildNotice`. -/
def frameReport : Frame :=
  ⟨"honeybadger.go", 92, "honeybadger.(*Client).Report"⟩

/-- The frame of `Reportf`, present below the user's frame when `Reportf`
delegates to `Report`. -/
def frameReportf : Frame :=
  ⟨"honeybadger.go", 125, "honeybadger.(*Client).Reportf"⟩

/-! ### Client construction -/

def DefaultEndpoint : String := "https://api.honeybadger.io/v1/notices"

def DefaultNotifierName : String := "honeybadger-go"

def DefaultNotifierURL : String := "https://github.com/hashrabbit/honeybadger-go"

/-- The `Client` configuration aggregate. -/
structure Client where
  apiKey : String
  projectRoot : String
  context : Context
  endpoint : String
  notifierName : String
  notifierURL : String

/-- Function `detectProjectRoot`: collects the file names of `runtime.Caller i` for
`i = 1, 2, ...` until failure, so `files` runs from the constructor `New`
(the caller of `detectProjectRoot`) outward to the outermost frame. If
fewer than three frames were collected the result is `""`; otherwise it is
`filepath.Dir` of `files[len(files)-3]`. `filepath.Dir` is Go stdlib and
is passed as the parameter `dir`. -/
def detectProjectRoot (dir : String → String) (files : List String) : String :=
  if files.length < 3 then ""
  else dir (files.getD (files.length - 3) "")

/-- Constructor `New apiKey`: a fresh client with the given key, an auto-detected
project root, a fresh empty context, and the default endpoint and notifier
identity. `files` is the stack of file names `detectProjectRoot` sees. -/
def New (dir : String → String) (files : List String) (apiKey : String) : Client :=
  { apiKey := apiKey
    projectRoot := detectProjectRoot dir files
    context := emptyContext
    endpoint := DefaultEndpoint
    notifierName := DefaultNotifierName
    notifierURL := DefaultNotifierURL }

/-! ### Notice construction -/

/-- The notice document `buildNotice` assembles, one field per key of the
nested map literal (`notifier`, `error`, `request.cgi_data`,
`request.context`, `server`). -/
structure Notice where
  notifierName : String
  notifierURL : String
  notifierLanguage : String
  errorClass : String
  errorMessage : String
  backtrace : List Frame
  cgiGOARCH : String
  cgiGOOS : String
  cgiGOVER : String
  requestContext : Context
  environmentName : String
  hostname : String
  projectRoot : String

/-- Ambient process state read while building a notice: the result of
`os.Hostname` (`Except` models its error return), `runtime.GOARCH`,
`runtime.GOOS`, `runtime.Version()`, `runtime.GOROOT()`, and the call
stack visible to `runtime.Caller` inside `stacktraceFrames` (index 0 = the
`stacktraceFrames` frame itself). -/
structure SysEnv where
  hostnameResult : Except String String
  goarch : String
  goos : String
  gover : String
  goroot : String
  stack : List Frame

/-- Method `buildNotice message skip`: hostname falls back to `""` when
`os.Hostname` errors; the backtrace is `stacktraceFrames (3 + skip)`. -/
def buildNotice (c : Client) (env : SysEnv) (message : String) (skip : Nat) : Notice :=
  let hostname := match env.hostnameResult with
    | .ok h => h
    | .error _ => ""
  { notifierName := c.notifierName
    notifierURL := c.notifierURL
    notifierLanguage := "go"
    errorClass := ""
    errorMessage := message
    backtrace := stacktraceFrames env.goroot c.projectRoot env.stack (3 + skip)
    cgiGOARCH := env.goarch
    cgiGOOS := env.goos
    cgiGOVER := env.gover
    requestContext := c.context
    environmentName := "production"
    hostname := hostname
    projectRoot := c.projectRoot }

/-- The notice `Report e` builds: the message comes from the type switch
on `e` and `buildNotice` is called with `skip = 2`. On the `Report` path
the stack seen by `runtime.Caller` inside `stacktraceFrames` is
`stacktraceFrames :: buildNotice :: Report :: callerStack`, where
`callerStack` begins with the frame of `Report`'s direct caller (its call
site) and continues outward. -/
def reportNotice (c : Client) (env : SysEnv) (callerStack : List Frame) (e : GoValue) :
    Notice :=
  buildNotice c
    { env with stack := frameStacktraceFrames :: frameBuildNotice :: frameReport :: callerStack }
    (reportMessage e) 2

/-- The notice `Reportf format args` builds: `Reportf` delegates to
`Report (fmt.Sprintf format args...)`, adding its own frame between
`Report` and `Reportf`'s caller, so `Report`'s caller stack is `Reportf`'s
frame followed by the stack of `Reportf`'s caller. -/
def reportfNotice (c : Client) (env : SysEnv) (callerStack : List Frame)
    (format : String) (args : List GoValue) : Notice :=
  reportNotice c env (frameReportf :: callerStack) (.goString (sprintf format args))

/-! ### Delivery (`Report`'s HTTP tail and `extractErrorID`) -/

/-- An HTTP response as `Report` consumes it: the status code and the
outcome of `ioutil.ReadAll` on its body (`Except` models the read error). -/
structure HttpResponse where
  statusCode : Nat
  bodyRead : Except String String

/-- Function `extractErrorID`: reads the whole body, then unmarshals the JSON `id`
field. `unmarshal` models `json.Unmarshal` into the anonymous ID struct:
`.ok id` on success (the zero value `""` when the field is absent),
`.error e` on malformed JSON. Returns `(identifier, error)` with `none`
modelling a nil error. -/
def extractErrorID (unmarshal : String → Except String String) (res : HttpResponse) :
    String × Option String :=
  match res.bodyRead with
  | .error e => ("", some e)
  | .ok body =>
    match unmarshal body with
    | .error e => ("", some e)
    | .ok id => (id, none)

/-- The tail of `Report` once a response has been received: when
`res.StatusCode / 100 != 2` it returns
`("", fmt.Errorf "unexpected status code %d" res.StatusCode)`; otherwise
the result of `extractErrorID`. -/
def reportHandleResponse (unmarshal : String → Except String String) (res : HttpResponse) :
    String × Option String :=
  if res.statusCode / 100 ≠ 2 then
    ("", some ("unexpected status code " ++ toString res.statusCode))
  else
    extractErrorID unmarshal res

/-- Outcome of `client.Do(req)`: either a response (`res` non-nil, `err`
nil) or a transport error (`res` nil, `err` non-nil). -/
inductive DoResult where
  | done (res : HttpResponse)
  | transportError (msg : String)

/-- How a `Report` call ends: a normal return of `(id, err)`, or a runtime
panic escaping `Report`. -/
inductive ReportOutcome where
  | returned (id : String) (err : Option String)
  | panicked (msg : String)
  deriving DecidableEq, Repr

/-- What `Report` does after `res, err := client.Do(req)`, paired with
whether the response body gets closed. The source registers
`defer res.Body.Close()` BEFORE checking `err`; on a transport error `res`
is nil, so when `return "", err` unwinds, the deferred call dereferences a
nil response pointer and panics with a nil-pointer runtime error — the
panic replaces the return value and there is no body to close. When a
response was received, the deferred close runs on every return path. -/
def report_afterDo (unmarshal : String → Except String String) (d : DoResult) :
    ReportOutcome × Bool :=
  match d with
  | .transportError _ =>
    (.panicked "runtime error: invalid memory address or nil pointer dereference", false)
  | .done res =>
    let r := reportHandleResponse unmarshal res
    (.returned r.1 r.2, true)

end Honeybadger

open Honeybadger

/-- C7: `set` followed by `get` on the same key yields exactly the value
set (so `set` replaces any previous value); `get` on a different key is
unaffected by `set`; after `del` the key reads as absent; `del` of an
absent key leaves the context unchanged; and mutating either component of
a pair of independently constructed clients never changes what `get`
returns on the other component. -/
theorem context_ops_spec :
    (∀ (ctx : Context) (k : String) (v : GoValue), (ctx.set k v).get k = some v) ∧
    (∀ (ctx : Context) (k k' : String) (v : GoValue), k' ≠ k →
      (ctx.set k v).get k' = ctx.get k') ∧
    (∀ (ctx : Context) (k : String), (ctx.del k).get k = none) ∧
    (∀ (ctx : Context) (k : String), ctx.get k = none → ctx.del k = ctx) ∧
    (∀ (p : ClientPair) (k k' : String) (v : GoValue),
      ((p.setFst k v).ctx2.get k' = p.ctx2.get k' ∧
       (p.delFst k).ctx2.get k' = p.ctx2.get k') ∧
      ((p.setSnd k v).ctx1.get k' = p.ctx1.get k' ∧
       (p.delSnd k).ctx1.get k' = p.ctx1.get k')) := by
  refine ⟨?_, ?_, ?_, ?_, ?_⟩
  · intro ctx k v
    simp [Context.get, Context.set]
  · intro ctx k k' v hne
    simp [Context.get, Context.set, hne]
  · intro ctx k
    simp [Context.get, Context.del]
  · intro ctx k habs
    funext k'
    by_cases h : k' = k
    · subst h
      simpa [Context.del] using habs.symm
    · simp [Context.del, h]
  · intro p k k' v
    exact ⟨⟨rfl, rfl⟩, ⟨rfl, rfl⟩⟩

/-- Witness for `context_ops_spec` at concrete inputs: key `"b"` differs
from key `"a"`, and the empty context has no entry at `"a"`. -/
theorem context_ops_spec_witness :
    ((emptyContext.set "a" (.goString "x")).get "a" = some (.goString "x")) ∧
    ("b" ≠ "a" ∧ (emptyContext.set "a" (.goString "x")).get "b" = emptyContext.get "b") ∧
    ((emptyContext.del "a").get "a" = none) ∧
    (emptyContext.get "a" = none ∧ emptyContext.del "a" = emptyContext) ∧
    ((ClientPair.mk emptyContext emptyContext |>.setFst "a" (.goInt 3)).ctx2.get "a" =
      (ClientPair.mk emptyContext emptyContext).ctx2.get "a") := by
  refine ⟨?_, ⟨?_, ?_⟩, ?_, ⟨?_, ?_⟩, ?_⟩
  · exact context_ops_spec.1 emptyContext "a" (.goString "x")
  · decide
  · exact context_ops_spec.2.1 emptyContext "a" "b" (.goString "x") (by decide)
  · exact context_ops_spec.2.2.1 emptyContext "a"
  · rfl
  · exact context_ops_spec.2.2.2.1 emptyContext "a" rfl
  · exact (context_ops_spec.2.2.2.2 (ClientPair.mk emptyContext emptyContext) "a" "a" (.goInt 3)).1.1

/-- C6: for every value passed to `Report`, the message of the notice it
builds equals the value's textual error description when the value is a
structured error, and the generic textual rendering of the value
otherwise. -/
theorem report_message_dispatch :
    ∀ (c : Client) (env : SysEnv) (callerStack : List Frame) (e : GoValue),
      (reportNotice c env callerStack e).errorMessage = specNoticeMessage e := by
  intro c env callerStack e
  cases e <;> rfl

/-- C5: `Reportf format args` builds the same notice message as `Report`
called with the string produced by conventional placeholder substitution
of `args` into `format` — both messages are that substituted string — and
on the spec's example the substituted string is
"a formatted error: [foo bar baz]". -/
theorem reportf_delegates_to_report :
    (∀ (c : Client) (env : SysEnv) (callerStack : List Frame) (format : String)
        (args : List GoValue),
      (reportfNotice c env callerStack format args).errorMessage =
        (reportNotice c env callerStack (.goString (sprintf format args))).errorMessage ∧
      (reportfNotice c env callerStack format args).errorMessage =
        sprintf format args) ∧
    sprintf "a %s error: %v"
      [.goString "formatted", .goStringSlice ["foo", "bar", "baz"]] =
      "a formatted error: [foo bar baz]" := by
  constructor
  · intro c env callerStack format args
    exact ⟨rfl, rfl⟩
  · rfl

/-- C8: every notice carries error class `""`, environment name
`"production"`, notifier language `"go"`, and the client's configured
notifier name and url; `New` configures notifier name and url to the
package defaults. -/
theorem notice_constant_fields :
    (∀ (c : Client) (env : SysEnv) (message : String) (skip : Nat),
      (buildNotice c env message skip).errorClass = "" ∧
      (buildNotice c env message skip).environmentName = "production" ∧
      (buildNotice c env message skip).notifierLanguage = "go" ∧
      (buildNotice c env message skip).notifierName = c.notifierName ∧
      (buildNotice c env message skip).notifierURL = c.notifierURL) ∧
    (∀ (c : Client) (env : SysEnv) (callerStack : List Frame) (e : GoValue),
      (reportNotice c env callerStack e).errorClass = "" ∧
      (reportNotice c env callerStack e).environmentName = "production" ∧
      (reportNotice c env callerStack e).notifierLanguage = "go" ∧
      (reportNotice c env callerStack e).notifierName = c.notifierName ∧
      (reportNotice c env callerStack e).notifierURL = c.notifierURL) ∧
    (∀ (dir : String → String) (files : List String) (apiKey : String),
      (New dir files apiKey).notifierName = DefaultNotifierName ∧
      (New dir files apiKey).notifierURL = DefaultNotifierURL) := by
  refine ⟨?_, ?_, ?_⟩
  · intro c env message skip
    exact ⟨rfl, rfl, rfl, rfl, rfl⟩
  · intro c env callerStack e
    exact ⟨rfl, rfl, rfl, rfl, rfl⟩
  · intro dir files apiKey
    exact ⟨rfl, rfl⟩

/-- C9: project-root detection walks the call stack outward from the
constructor; with fewer than three frames available the detected root is
the empty string, and otherwise it is the directory of the
third-from-outermost frame's file (the outermost frame being the last one
collected, i.e. index 2 of the reversed frame list). -/
theorem detect_project_root_spec :
    ∀ (dir : String → String) (files : List String),
      (files.length < 3 → detectProjectRoot dir files = "") ∧
      (3 ≤ files.length →
        detectProjectRoot dir files = dir (files.reverse.getD 2 "")) := by
  intro dir files
  constructor
  · intro h
    simp [detectProjectRoot, h]
  · intro h
    have h3 : ¬ files.length < 3 := by omega
    have hidx : files[files.length - 3]?.getD "" = files.reverse[2]?.getD "" := by
      rw [List.getElem?_reverse (show 2 < files.length by omega)]
      congr 2
    simp [detectProjectRoot, List.getD, h3, hidx]

/-- Witness for `detect_project_root_spec`: a one-frame stack yields `""`,
and a four-frame stack yields the directory of the second file, which is
the third from the outermost. -/
theorem detect_project_root_spec_witness :
    ((["solo.go"] : List String).length < 3 ∧
      detectProjectRoot (fun s => String.append s "/dir") ["solo.go"] = "") ∧
    (3 ≤ (["a.go", "b.go", "c.go", "d.go"] : List String).length ∧
      detectProjectRoot (fun s => String.append s "/dir")
          ["a.go", "b.go", "c.go", "d.go"] =
        (fun s => String.append s "/dir")
          ((["a.go", "b.go", "c.go", "d.go"] : List String).reverse.getD 2 "")) := by
  constructor
  · exact ⟨by decide,
      (detect_project_root_spec (fun s => String.append s "/dir") ["solo.go"]).1 (by decide)⟩
  · exact ⟨by decide,
      (detect_project_root_spec (fun s => String.append s "/dir")
        ["a.go", "b.go", "c.go", "d.go"]).2 (by decide)⟩

/-- C4: a received response with status in 200–299 is never rejected for
its status — `Report` proceeds to identifier extraction; any other status
yields a failure whose error description contains the status code; and
every failing outcome of the response-handling tail pairs the empty
identifier with its non-nil error. -/
theorem report_status_handling :
    (∀ (u : String → Except String String) (res : HttpResponse),
      200 ≤ res.statusCode → res.statusCode ≤ 299 →
        reportHandleResponse u res = extractErrorID u res) ∧
    (∀ (u : String → Except String String) (res : HttpResponse),
      ¬ (200 ≤ res.statusCode ∧ res.statusCode ≤ 299) →
        ∃ pre post,
          reportHandleResponse u res =
            ("", some (pre ++ toString res.statusCode ++ post))) ∧
    (∀ (u : String → Except String String) (res : HttpResponse) (id e : String),
      reportHandleResponse u res = (id, some e) → id = "") := by
  refine ⟨?_, ?_, ?_⟩
  · intro u res h200 h299
    have h2 : res.statusCode / 100 = 2 := by omega
    simp [reportHandleResponse, h2]
  · intro u res hfail
    have h2 : res.statusCode / 100 ≠ 2 := by omega
    refine ⟨"unexpected status code ", "", ?_⟩
    simp [reportHandleResponse, h2, String.append_empty]
  · intro u res id e h
    unfold reportHandleResponse extractErrorID at h
    split at h
    · exact (congrArg Prod.fst h).symm
    · split at h
      · exact (congrArg Prod.fst h).symm
      · split at h
        · exact (congrArg Prod.fst h).symm
        · exact absurd (congrArg Prod.snd h) (by simp)

/-- Witness for `report_status_handling`: status 201 is handled by
identifier extraction, status 422 fails with the code in the message, and
a concrete failing outcome carries the empty identifier. -/
theorem report_status_handling_witness :
    (200 ≤ (201 : Nat) ∧ (201 : Nat) ≤ 299 ∧
      reportHandleResponse (fun _ => .ok "abc123") ⟨201, .ok "body"⟩ =
        extractErrorID (fun _ => .ok "abc123") ⟨201, .ok "body"⟩) ∧
    (¬ (200 ≤ (422 : Nat) ∧ (422 : Nat) ≤ 299) ∧
      ∃ pre post,
        reportHandleResponse (fun _ => .ok "abc123") ⟨422, .ok "body"⟩ =
          ("", some (pre ++ toString (422 : Nat) ++ post))) ∧
    (reportHandleResponse (fun _ => .ok "abc123") ⟨422, .ok "body"⟩ =
        ("", some "unexpected status code 422") ∧
      ("" : String) = "") := by
  refine ⟨⟨by decide, by decide, ?_⟩, ⟨by decide, ?_⟩, ⟨?_, ?_⟩⟩
  · exact report_status_handling.1 (fun _ => .ok "abc123") ⟨201, .ok "body"⟩
      (by decide) (by decide)
  · exact report_status_handling.2.1 (fun _ => .ok "abc123") ⟨422, .ok "body"⟩
      (by decide)
  · rfl
  · exact report_status_handling.2.2 (fun _ => .ok "abc123") ⟨422, .ok "body"⟩
      "" "unexpected status code 422" rfl

/-- C3 counterexample: with GOROOT `"/usr/go"` and detected project root
`"/usr/go/src/proj"`, the path `"/usr/go/src/proj/main.go"` begins with
the project root, yet `filterPath` yields `"[GO_ROOT]/src/proj/main.go"`,
not `"[PROJECT_ROOT]/main.go"` as the claim requires: the GOROOT
substitution runs first and consumes the prefix. -/
theorem filterPath_goroot_precedence_counterexample :
    ("/usr/go/src/proj" : String) ≠ "" ∧
    beginsWith "/usr/go/src/proj" "/usr/go/src/proj/main.go" = true ∧
    filterPath "/usr/go" "/usr/go/src/proj" "/usr/go/src/proj/main.go" =
      "[GO_ROOT]/src/proj/main.go" ∧
    filterPath "/usr/go" "/usr/go/src/proj" "/usr/go/src/proj/main.go" ≠
      "[PROJECT_ROOT]" ++
        dropChars "/usr/go/src/proj/main.go" ("/usr/go/src/proj" : String).length := by
  refine ⟨by decide, by decide, by decide, by decide⟩

/-- C3 amended: `filterPath` performs anchored prefix substitution only,
with the GOROOT substitution applied first and the project-root
substitution applied to its result. A path starting with neither root — in
particular one containing a root only as an interior substring — is
returned unchanged; a path starting with the project root but not with
GOROOT becomes `"[PROJECT_ROOT]"` plus the rest; a path starting with
GOROOT becomes `"[GO_ROOT]"` plus the rest (even if it also started with
the project root), provided the project root does not prefix the
substituted string. The spec's example and the interior-substring case are
instantiated in the last two conjuncts. -/
theorem filterPath_anchored_substitution :
    (∀ goroot projectRoot p, beginsWith goroot p = false →
      beginsWith projectRoot p = false →
      filterPath goroot projectRoot p = p) ∧
    (∀ goroot projectRoot p, projectRoot ≠ "" →
      beginsWith goroot p = false →
      beginsWith projectRoot p = true →
      filterPath goroot projectRoot p =
        "[PROJECT_ROOT]" ++ dropChars p projectRoot.length) ∧
    (∀ goroot projectRoot p, beginsWith goroot p = true →
      (projectRoot = "" ∨
        beginsWith projectRoot ("[GO_ROOT]" ++ dropChars p goroot.length) = false) →
      filterPath goroot projectRoot p = "[GO_ROOT]" ++ dropChars p goroot.length) ∧
    filterPath "/usr/local/go" "/home/proj/x" "/home/proj/x/y.go" =
      "[PROJECT_ROOT]/y.go" ∧
    filterPath "/usr/local/go" "/home/proj/x" "/tmp/home/proj/x/y.go" =
      "/tmp/home/proj/x/y.go" := by
  refine ⟨?_, ?_, ?_, by decide, by decide⟩
  · intro goroot projectRoot p hg hp
    have hne : projectRoot ≠ "" := by
      intro he
      rw [he] at hp
      simp [beginsWith] at hp
    simp [filterPath, anchoredReplace, hg, hp, hne]
  · intro goroot projectRoot p hne hg hp
    simp [filterPath, anchoredReplace, hg, hp, hne]
  · intro goroot projectRoot p hg hp
    rcases hp with he | hp
    · simp [filterPath, anchoredReplace, hg, he]
    · simp [filterPath, anchoredReplace, hg, hp]

/-- Witness for `filterPath_anchored_substitution` at concrete roots and
paths: no-match, project-root-match, and GOROOT-match instances. -/
theorem filterPath_anchored_substitution_witness :
    (beginsWith "/go" "/elsewhere/a.go" = false ∧
      beginsWith "/proj" "/elsewhere/a.go" = false ∧
      filterPath "/go" "/proj" "/elsewhere/a.go" = "/elsewhere/a.go") ∧
    (("/proj" : String) ≠ "" ∧
      beginsWith "/go" "/proj/a.go" = false ∧
      beginsWith "/proj" "/proj/a.go" = true ∧
      filterPath "/go" "/proj" "/proj/a.go" =
        "[PROJECT_ROOT]" ++ dropChars "/proj/a.go" ("/proj" : String).length) ∧
    (beginsWith "/go" "/go/src/a.go" = true ∧
      beginsWith "/proj" ("[GO_ROOT]" ++
        dropChars "/go/src/a.go" ("/go" : String).length) = false ∧
      filterPath "/go" "/proj" "/go/src/a.go" =
        "[GO_ROOT]" ++ dropChars "/go/src/a.go" ("/go" : String).length) := by
  refine ⟨⟨by decide, by decide, ?_⟩, ⟨by decide, by decide, by decide, ?_⟩,
    ⟨by decide, by decide, ?_⟩⟩
  · exact filterPath_anchored_substitution.1 "/go" "/proj" "/elsewhere/a.go"
      (by decide) (by decide)
  · exact filterPath_anchored_substitution.2.1 "/go" "/proj" "/proj/a.go"
      (by decide) (by decide) (by decide)
  · exact filterPath_anchored_substitution.2.2.1 "/go" "/proj" "/go/src/a.go"
      (by decide) (Or.inr (by decide))

/-- A concrete client for evaluating the backtrace-depth behaviour:
project root `"/app"`, defaults elsewhere. -/
def exampleClient : Client :=
  { apiKey := "k"
    projectRoot := "/app"
    context := emptyContext
    endpoint := DefaultEndpoint
    notifierName := DefaultNotifierName
    notifierURL := DefaultNotifierURL }

/-- A concrete ambient environment with GOROOT `"/goroot"`. -/
def exampleEnv : SysEnv :=
  { hostnameResult := .ok "host"
    goarch := "amd64"
    goos := "linux"
    gover := "go1.4"
    goroot := "/goroot"
    stack := [] }

/-- The caller stack when user code calls `Report` or `Reportf` directly
from `main.main`: the call site in main.go, then `runtime.main`, then
`runtime.goexit` (outermost). -/
def exampleCallerStack : List Frame :=
  [⟨"/app/main.go", 10, "main.main"⟩,
   ⟨"/goroot/src/runtime/proc.go", 63, "runtime.main"⟩,
   ⟨"/goroot/src/runtime/asm_amd64.s", 2232, "runtime.goexit"⟩]

/-- C2: evaluation at the failing input. With `Report` invoked directly
from `main.main`, the first backtrace entry is the filtered
`runtime.goexit` frame — two frames outward of the caller's call site; on
the `Reportf` path with the same caller the first entry is the filtered
`runtime.main` frame — one frame outward. Neither equals the caller's own
call site (the filtered main.go frame), and the two entry points disagree:
`buildNotice` is reached with `skip = 2` and `stacktraceFrames` drops
`3 + 2 = 5` frames, although only 3 (`Report` path) or 4 (`Reportf` path)
of them belong to the library. -/
theorem backtrace_first_frame_skips_call_site :
    (reportNotice exampleClient exampleEnv exampleCallerStack
        (.goString "boom")).backtrace.head? =
      some ⟨"[GO_ROOT]/src/runtime/asm_amd64.s", 2232, "runtime.goexit"⟩ ∧
    (reportfNotice exampleClient exampleEnv exampleCallerStack "boom" []).backtrace.head? =
      some ⟨"[GO_ROOT]/src/runtime/proc.go", 63, "runtime.main"⟩ ∧
    filterPath exampleEnv.goroot exampleClient.projectRoot "/app/main.go" =
      "[PROJECT_ROOT]/main.go" ∧
    (reportNotice exampleClient exampleEnv exampleCallerStack
        (.goString "boom")).backtrace.head? ≠
      some ⟨"[PROJECT_ROOT]/main.go", 10, "main.main"⟩ ∧
    (reportfNotice exampleClient exampleEnv exampleCallerStack "boom" []).backtrace.head? ≠
      some ⟨"[PROJECT_ROOT]/main.go", 10, "main.main"⟩ := by
  refine ⟨rfl, rfl, by decide, by decide, by decide⟩

/-- C1: evaluation at the failing input. When `client.Do` fails with a
transport error (`res` nil), `Report` panics out of the library — the
deferred `res.Body.Close()` was registered before the error check and
dereferences the nil response — instead of returning the transport error
with an empty identifier, and no body exists to be closed. When a response
was received, the body is closed and `Report` returns a value on every
path. -/
theorem report_transport_error_panics :
    report_afterDo (fun _ => .error "unexpected end of JSON input")
        (.transportError "connection refused") =
      (.panicked "runtime error: invalid memory address or nil pointer dereference",
        false) ∧
    (∀ (u : String → Except String String) (res : HttpResponse),
      (report_afterDo u (.done res)).2 = true ∧
      ∃ id e, (report_afterDo u (.done res)).1 = .returned id e) := by
  constructor
  · rfl
  · intro u res
    exact ⟨rfl, _, _, rfl⟩
